import Mathlib

/-!
Verification model of the `o2utils` repository (oxygen-sensor respirometry
pipeline).  The Python source is shallowly embedded: dataframes become lists
of row structures, fallible operations return `Except`, Python floats become
an explicit rational-or-NaN value type, and library routines (polars, scipy)
are translated from their documented/observable behaviour at the call sites
the repository uses.
-/

namespace O2Utils

/-! ## Python float values

Python/polars floats at the points this code consumes them are either an
ordinary finite number or NaN (infinities cannot arise on the code paths
modelled here: every division is guarded by an explicit zero test in the
model, mirroring scipy's own guards).  Finite values are embedded as exact
rationals. -/

inductive PyVal where
  | num (q : ℚ)
  | nan
deriving DecidableEq, Repr

namespace PyVal

def add : PyVal → PyVal → PyVal
  | num a, num b => num (a + b)
  | _, _ => nan

def mul : PyVal → PyVal → PyVal
  | num a, num b => num (a * b)
  | _, _ => nan

def sub : PyVal → PyVal → PyVal
  | num a, num b => num (a - b)
  | _, _ => nan

/-- Division by a rational known to the caller (nonzero denominators only on
the modelled paths; division by zero yields NaN, the only case the sources
can reach with a zero denominator is 0/0). -/
def divQ : PyVal → ℚ → PyVal
  | num a, q => if q = 0 then nan else num (a / q)
  | nan, _ => nan

def isNan : PyVal → Bool
  | nan => true
  | num _ => false

/-- Sum of a list of float values; NaN propagates through the sum exactly as
in IEEE arithmetic. -/
def sum (l : List PyVal) : PyVal := l.foldr add (num 0)

/-- `polars` `.round(d)`: round to `d` decimal digits.  NaN rounds to NaN.
(The model fixes round-half-away-from-zero via `round`; no theorem below
depends on the tie-breaking convention.) -/
def roundTo (d : Nat) : PyVal → PyVal
  | num q => num ((round (q * (10 ^ d : ℚ)) : ℤ) / (10 ^ d : ℚ))
  | nan => nan

end PyVal

/-! ## Name normalizer (`processing.clean_name`)

`clean_name` lowercases, substitutes/deletes a fixed character list
(`_normalize_1`), strips diacritics via NFD decomposition
(`_strip_accents`), trims edge underscores (`_strip_underscores`) and
finally deletes every character that is neither alphanumeric nor an
underscore (`_remove_special`).

The Unicode tables (lowercase mapping, canonical decomposition, combining
class, alphanumeric test) are not re-derivable inside the embedding, so the
development is parametrised over them (`PyUni`); theorems about all strings
take the (true) Unicode facts they need as hypotheses, and concrete
evaluations use `asciiUni`, which is exactly faithful to CPython on ASCII
input (ASCII characters have no canonical decomposition, are never
combining, and `str.lower`/`str.isalnum` agree with the ASCII tables).

`NFD` also canonically reorders combining marks, but `_strip_accents`
deletes every combining character immediately afterwards and characters of
combining class 0 are never reordered, so modelling the decomposition
character-by-character (`nfdAll`) is extensionally faithful for the
composite `_strip_accents`. -/

structure PyUni where
  lower : Char → List Char
  nfd : Char → List Char
  combining : Char → Bool
  isAlnum : Char → Bool

/-- Characters replaced by an underscore by the first regex of
`_normalize_1` (`r"[ /:,?()\.-]"`). -/
def set1 : List Char := [' ', '/', ':', ',', '?', '(', ')', '.', '-']

/-- Characters deleted by the second regex of `_normalize_1` (`r"['’]"`). -/
def aposSet : List Char := ['\'', '’']

/-- The non-breaking space replaced by the third regex (`r"[\xa0]"`). -/
def nbsp : Char := '\xa0'

/-- `str.lower()` applied characterwise (CPython applies the Unicode
lowercase mapping per character; possible expansions are lists). -/
def lowerAll (u : PyUni) : List Char → List Char
  | [] => []
  | c :: t => u.lower c ++ lowerAll u t

/-- Full canonical decomposition of every character, concatenated. -/
def nfdAll (u : PyUni) : List Char → List Char
  | [] => []
  | c :: t => u.nfd c ++ nfdAll u t

/-- `_normalize_1`: the three `re.sub` passes, in source order. -/
def normalize_1 (s : List Char) : List Char :=
  ((s.map (fun c => if c ∈ set1 then '_' else c)).filter
      (fun c => !decide (c ∈ aposSet))).map
    (fun c => if c = nbsp then '_' else c)

/-- `_strip_accents`: NFD-decompose, drop combining characters. -/
def _strip_accents (u : PyUni) (s : List Char) : List Char :=
  (nfdAll u s).filter (fun c => !u.combining c)

/-- `_strip_underscores`: `str.strip("_")` — remove leading and trailing
underscores. -/
def _strip_underscores (s : List Char) : List Char :=
  ((s.dropWhile (fun c => decide (c = '_'))).reverse.dropWhile
      (fun c => decide (c = '_'))).reverse

/-- `_remove_special`: keep alphanumerics and underscores only. -/
def _remove_special (u : PyUni) (s : List Char) : List Char :=
  s.filter (fun c => u.isAlnum c || decide (c = '_'))

/-- `clean_name` with its three option flags (source defaults all `True`). -/
def clean_name (u : PyUni) (name : List Char) (strip_accents : Bool := true)
    (strip_underscores : Bool := true) (remove_special : Bool := true) :
    List Char :=
  let n0 := lowerAll u name
  let n1 := normalize_1 n0
  let n2 := if strip_accents then _strip_accents u n1 else n1
  let n3 := if strip_underscores then _strip_underscores n2 else n2
  if remove_special then _remove_special u n3 else n3

/-- ASCII lowercase mapping (what `str.lower` does on ASCII). -/
def asciiLower (c : Char) : Char :=
  if 'A' ≤ c ∧ c ≤ 'Z' then Char.ofNat (c.toNat + 32) else c

/-- Concrete Unicode tables, exactly faithful to CPython for ASCII text:
no ASCII character has a canonical decomposition or a nonzero combining
class, and `Char.isAlphanum` agrees with `str.isalnum` on ASCII. -/
def asciiUni : PyUni where
  lower := fun c => [asciiLower c]
  nfd := fun c => [c]
  combining := fun _ => false
  isAlnum := Char.isAlphanum

/-- Decidable equality on `Except` results (not provided by the core
library at this version), used to evaluate the model at concrete inputs. -/
instance exceptDecEq {e a : Type} [DecidableEq e] [DecidableEq a] :
    DecidableEq (Except e a) := fun x y =>
  match x, y with
  | Except.ok v, Except.ok w =>
    if h : v = w then isTrue (by rw [h])
    else isFalse (by intro hc; injection hc with hc2; exact h hc2)
  | Except.error v, Except.error w =>
    if h : v = w then isTrue (by rw [h])
    else isFalse (by intro hc; injection hc with hc2; exact h hc2)
  | Except.ok _, Except.error _ => isFalse (fun hc => Except.noConfusion hc)
  | Except.error _, Except.ok _ => isFalse (fun hc => Except.noConfusion hc)

/-! ## Errors

The Python exceptions observable on the modelled code paths.
`noRowsReturned` is polars' `NoRowsReturnedError`, the concrete class behind
the spec's `NotFoundError`. -/

inductive PyError where
  | outOfBounds
  | keyError (stem : String)
  | valueError
  | toDatetimeError
  | strptimeError
  | indexError
  | noRowsReturned
  | tooManyRowsReturned
deriving DecidableEq, Repr

/-! ## Timestamps

The cleaned files carry local timestamps as strings in the fixed format
`YYYY-MM-DD HH:MM:SS±HHMM` (`"%Y-%m-%d %H:%M:%S%z"`, written by the parser
and re-read by the fit engine).  `parseDT` is the embedding of parsing such
a string to an absolute instant in epoch seconds (what both
`polars.str.to_datetime` and `datetime.strptime` compute for this format),
via the standard civil-date-to-day-count conversion. -/

/-- Days since 1970-01-01 of the civil date `y-m-d` (proleptic Gregorian). -/
def daysFromCivil (y m d : Int) : Int :=
  let y2 := if m ≤ 2 then y - 1 else y
  let era := (if 0 ≤ y2 then y2 else y2 - 399) / 400
  let yoe := y2 - era * 400
  let mp := (m + 9) % 12
  let doy := (153 * mp + 2) / 5 + d - 1
  let doe := yoe * 365 + yoe / 4 - yoe / 100 + doy
  era * 146097 + doe - 719468

def digitVal (c : Char) : Option Nat :=
  if c.isDigit then some (c.toNat - 48) else none

def twoDigits (a b : Char) : Option Nat := do
  let x ← digitVal a
  let y ← digitVal b
  pure (10 * x + y)

/-- Parse `"YYYY-MM-DD HH:MM:SS±HHMM"` to epoch seconds; `none` on any
malformed input (the strict parsers raise there). -/
def parseDT (s : String) : Option Int :=
  match s.data with
  | [y1, y2, y3, y4, '-', m1, m2, '-', d1, d2, ' ',
     h1, h2, ':', n1, n2, ':', s1, s2, sg, o1, o2, o3, o4] => do
    let yh ← twoDigits y1 y2
    let yl ← twoDigits y3 y4
    let mo ← twoDigits m1 m2
    let dy ← twoDigits d1 d2
    let hr ← twoDigits h1 h2
    let mi ← twoDigits n1 n2
    let se ← twoDigits s1 s2
    let oh ← twoDigits o1 o2
    let om ← twoDigits o3 o4
    let sign : Int ← if sg = '+' then some 1 else if sg = '-' then some (-1) else none
    if 1 ≤ mo ∧ mo ≤ 12 ∧ 1 ≤ dy ∧ dy ≤ 31 ∧ hr ≤ 23 ∧ mi ≤ 59 ∧ se ≤ 59 then
      some (daysFromCivil (100 * yh + yl) mo dy * 86400 + hr * 3600 + mi * 60 + se
        - sign * (oh * 3600 + om * 60))
    else none
  | _ => none

/-- `datetime.strptime(s, "%Y-%m-%d %H:%M:%S%z").strftime("%Y%m%dT%H%M%S")`:
the timestamp-prefix computation of the batch exporter.  `%Y%m%dT%H%M%S`
re-emits the parsed wall-clock fields, so on well-formed input it is the
digit rearrangement below; malformed input makes `strptime` raise
(`none`). -/
def reformatDT (s : String) : Option String :=
  match s.data with
  | [y1, y2, y3, y4, '-', m1, m2, '-', d1, d2, ' ',
     h1, h2, ':', n1, n2, ':', s1, s2, _, _, _, _, _] =>
    if (parseDT s).isSome then
      some (String.mk [y1, y2, y3, y4, m1, m2, d1, d2, 'T', h1, h2, n1, n2, s1, s2])
    else none
  | _ => none

/-- Zero-pad a natural number to two digits. -/
def pad2 (n : Nat) : String :=
  if n < 10 then "0" ++ toString n else toString n

/-- Modelled from the spec: the `HH:MM:SS` rendering of a nonnegative
duration in whole seconds that §4.5 step 7 and §3 claim for the fit
record's `duration` field.  This definition follows the spec's words and
exists only to be compared against what the code computes. -/
def hhmmss (secs : Nat) : String :=
  pad2 (secs / 3600) ++ ":" ++ pad2 (secs / 60 % 60) ++ ":" ++ pad2 (secs % 60)

/-- The `"polars"` duration rendering used by
`.dt.to_string("polars")` on a `Duration[μs]` column: nonzero components
`d`, `h`, `m`, `s`, `ms`, `µs` are printed as `{n}{unit}` separated by
spaces (a zero duration prints `"0µs"`), as in polars' dataframe display of
durations. -/
def fmtDurationPolars (us : Int) : String :=
  if us = 0 then "0µs"
  else
    let sign := if us < 0 then "-" else ""
    let a := us.natAbs
    let parts : List (Nat × String) :=
      [(a / 86400000000, "d"), (a / 3600000000 % 24, "h"), (a / 60000000 % 60, "m"),
       (a / 1000000 % 60, "s"), (a / 1000 % 1000, "ms"), (a % 1000, "µs")]
    sign ++ String.intercalate " "
      ((parts.filter (fun p => p.1 ≠ 0)).map (fun p => toString p.1 ++ p.2))

/-! ## Data model

One row of a cleaned series file, restricted to the columns the fit engine
consumes (`analyze.linear_fit` reads `source_file_cleaned`, `time_seconds`,
`oxygen`, `temperature` and `datetime_local`; the remaining columns are
carried through the filter untouched and play no part in any claim). -/

structure DataRow where
  source_file_cleaned : String
  time_seconds : Int
  oxygen : PyVal
  temperature : PyVal
  datetime_local : String
deriving DecidableEq, Repr

/-- One metadata row, restricted to the fields the modelled operations
consume (`linear_fit` reads only the analysis window; `get_metadata`
matches on `source_file_cleaned`; the many experiment-description fields of
`common.MetadataRow` are never read by the fit engine). -/
structure MetadataRow where
  source_file_cleaned : String
  analysis_start_seconds : Int
  analysis_stop_seconds : Int
deriving DecidableEq, Repr

/-- The one-row fit summary (`analyze.FitResult` serialised through the
explicit `schema`): each field other than the filename is nullable, and a
present float may still be NaN. -/
structure FitRow where
  source_file_cleaned : String
  slope : Option PyVal
  r2 : Option PyVal
  mean_temperature : Option PyVal
  start_time : Option String
  stop_time : Option String
  duration : Option String
deriving DecidableEq, Repr

/-- A filtered series row with the added `oxygen_fitted` column. -/
structure FittedRow extends DataRow where
  oxygen_fitted : PyVal
deriving DecidableEq, Repr

/-! ## `scipy.stats.linregress`

Translated from scipy's implementation at this call site: with more than
one sample and all x identical it raises `ValueError`; an empty input
raises (`np.amax` of an empty array); a NaN among the y values poisons
every statistic.  Otherwise slope `= Sxy/Sxx`, intercept
`= ymean − slope·xmean`, and `r` is `Sxy/√(Sxx·Syy)` guarded to `0` when
the denominator vanishes and clipped to `[-1, 1]`.  Only `rvalue²` is
consumed by `linear_fit` (`result.rvalue**2`), and `r²` is rational even
though `r` is not, so the model carries `rvalue2 = min 1 (Sxy²/(Sxx·Syy))`
directly. -/

structure LinRes where
  slope : PyVal
  intercept : PyVal
  rvalue2 : PyVal
deriving DecidableEq, Repr

def centeredSq (l : List ℚ) (m : ℚ) : ℚ := (l.map (fun x => (x - m) ^ 2)).sum

def linregressE (xs : List ℚ) (ys : List PyVal) : Except PyError LinRes :=
  match xs with
  | [] => Except.error PyError.valueError
  | x0 :: xr =>
    if 0 < xr.length ∧ ∀ x ∈ xr, x = x0 then Except.error PyError.valueError
    else if ys.any PyVal.isNan then Except.ok ⟨PyVal.nan, PyVal.nan, PyVal.nan⟩
    else
      let yq := ys.filterMap (fun v => match v with | PyVal.num q => some q | PyVal.nan => none)
      let n : ℚ := xs.length
      let xm := xs.sum / n
      let ym := yq.sum / n
      let sxx := centeredSq xs xm
      let syy := centeredSq yq ym
      let sxy := ((xs.zip yq).map (fun p => (p.1 - xm) * (p.2 - ym))).sum
      let slope : PyVal := if sxx = 0 then PyVal.nan else PyVal.num (sxy / sxx)
      let intercept : PyVal := PyVal.sub (PyVal.num ym) (PyVal.mul slope (PyVal.num xm))
      let rvalue2 : PyVal :=
        if sxx * syy = 0 then PyVal.num 0
        else PyVal.num (min 1 (sxy ^ 2 / (sxx * syy)))
      Except.ok ⟨slope, intercept, rvalue2⟩

/-! ## `analyze.linear_fit` -/

/-- `df.item(0, "source_file_cleaned")`: polars raises an out-of-bounds
error on an empty frame. -/
def dfItemFirst (df : List DataRow) : Except PyError DataRow :=
  match df with
  | [] => Except.error PyError.outOfBounds
  | r :: _ => Except.ok r

/-- The stop-bound resolution of `linear_fit` lines 65–66: the `-1`
sentinel is replaced by `df.item(-1, x_col)`, the last row's elapsed
time (out-of-bounds on an empty frame). -/
def resolveStop (df : List DataRow) (stop : Int) : Except PyError Int :=
  if stop = -1 then
    match df.getLast? with
    | some r => Except.ok r.time_seconds
    | none => Except.error PyError.outOfBounds
  else Except.ok stop

/-- `pl.col(x).is_between(start, stop)`: inclusive on both ends. -/
def isBetween (start stop t : Int) : Bool :=
  decide (start ≤ t) && decide (t ≤ stop)

/-- The all-null result record built at the top of `linear_fit` (only the
filename is populated). -/
def emptyFitRow (name : String) : FitRow :=
  ⟨name, none, none, none, none, none, none⟩

/-- The duration column:
`(stop_time.str.to_datetime() − start_time.str.to_datetime())` rendered
with `.dt.to_string("polars")`.  The strict `to_datetime` raises on a
malformed timestamp string; the difference of two aware datetimes is a
`Duration[μs]`. -/
def durationOfE (tStart tStop : String) : Except PyError String :=
  match parseDT tStop, parseDT tStart with
  | some b, some a => Except.ok (fmtDurationPolars ((b - a) * 1000000))
  | _, _ => Except.error PyError.toDatetimeError

/-- `df.with_columns((slope * x + intercept).alias("oxygen_fitted"))`:
the filtered frame annotated with the fitted line. -/
def fittedRows (res : LinRes) (dff : List DataRow) : List FittedRow :=
  dff.map (fun r =>
    { toDataRow := r,
      oxygen_fitted :=
        PyVal.add (PyVal.mul res.slope (PyVal.num (r.time_seconds : ℚ)))
          res.intercept })

/-- `_mean_value(df.get_column(y2_col))`: the mean of the temperature
column.  The `@safe` wrapper cannot catch anything here — the frame is
nonempty and `Series.mean` is total — so the source's `Ok` branch is
taken; a NaN input propagates through the sum as in polars. -/
def meanTemperature (dff : List DataRow) : PyVal :=
  PyVal.divQ (PyVal.sum (dff.map (fun r => r.temperature))) (dff.length : ℚ)

/-- The body of `linear_fit` below the `df.is_empty()` early return,
running on the (nonempty) filtered frame `d0 :: drest`: regression,
fitted column, time bounds from the first/last filtered row, mean
temperature, rounding, duration. -/
def fitNonempty (name : String) (d0 : DataRow) (drest : List DataRow) :
    Except PyError (FitRow × List FittedRow) := do
  let result ← linregressE ((d0 :: drest).map (fun r => (r.time_seconds : ℚ)))
    ((d0 :: drest).map (fun r => r.oxygen))
  let dur ← durationOfE d0.datetime_local ((drest.getLast?).getD d0).datetime_local
  Except.ok
    ({ source_file_cleaned := name,
       slope := some (PyVal.roundTo 5 result.slope),
       r2 := some (PyVal.roundTo 3 result.rvalue2),
       mean_temperature := some (PyVal.roundTo 1 (meanTemperature (d0 :: drest))),
       start_time := some d0.datetime_local,
       stop_time := some ((drest.getLast?).getD d0).datetime_local,
       duration := some dur }, fittedRows result (d0 :: drest))

/-- `analyze.linear_fit`, translated statement by statement: read the
filename from the first row, resolve the stop bound, filter to the window,
return the all-null record on an empty window (no fit attempted), and
otherwise hand the filtered frame to `fitNonempty`. -/
def linear_fit (df : List DataRow) (metadata : MetadataRow) :
    Except PyError (FitRow × List FittedRow) := do
  let r0 ← dfItemFirst df
  let name := r0.source_file_cleaned
  let start := metadata.analysis_start_seconds
  let stop ← resolveStop df metadata.analysis_stop_seconds
  match df.filter (fun r => isBetween start stop r.time_seconds) with
  | [] =>
    Except.ok (emptyFitRow name,
      ([] : List DataRow).map (fun r => { toDataRow := r, oxygen_fitted := PyVal.nan }))
  | d0 :: drest => fitNonempty name d0 drest

/-! ## `analyze.get_fit`

The metadata row and the series content are the results of `read_excel`
/ `read_csv`, passed in here already loaded (file I/O is outside the
embedding).  `start` and `stop` are resolved with Python `or` semantics
(`None` and `0` both fall back to the metadata window) — and then never
forwarded: `linear_fit(data, info)` is called without them. -/

def pyOrInt (a : Option Int) (b : Int) : Int :=
  match a with
  | some x => if x = 0 then b else x
  | none => b

def get_fit (data : List DataRow) (info : MetadataRow)
    (start : Option Int := none) (stop : Option Int := none) :
    Except PyError (FitRow × List FittedRow) :=
  let _start_resolved := pyOrInt start info.analysis_start_seconds
  let _stop_resolved := pyOrInt stop info.analysis_stop_seconds
  linear_fit data info

/-! ## `common.get_metadata`

`DataFrame.row(by_predicate=...)` raises `NoRowsReturnedError` when the
predicate selects no row and `TooManyRowsReturnedError` when it selects
more than one; with exactly one match it returns that row. -/

def rowByPredicateE (rows : List MetadataRow) (p : MetadataRow → Bool) :
    Except PyError MetadataRow :=
  match rows.filter p with
  | [] => Except.error PyError.noRowsReturned
  | [r] => Except.ok r
  | _ :: _ :: _ => Except.error PyError.tooManyRowsReturned

def get_metadata (table : List MetadataRow) (source : String) :
    Except PyError MetadataRow :=
  rowByPredicateE table (fun r => decide (r.source_file_cleaned = source))

/-! ## `parse_presens_file` (sensor file parser)

One raw data row of an instrument log after header normalization and
whitespace stripping: the date/time text columns and the measurement
columns (`clean.py` variant; required columns `date_dd_mm_yy`,
`time_hh_mm_ss`, `oxygen_airsatur`, `temp_c`, `phase`, `amp`). -/

structure RawRow where
  date_dd_mm_yy : String
  time_hh_mm_ss : String
  oxygen_airsatur : PyVal
  temp_c : PyVal
  phase : PyVal
  amp : Int
deriving DecidableEq, Repr

/-- One output row of the parser, in the canonical schema. -/
structure ParsedRow where
  source_file : String
  time_seconds : Int
  oxygen : PyVal
  temperature : PyVal
  phase : PyVal
  amplitude : Int
  datetime_presens : String
  datetime_local : String
deriving DecidableEq, Repr

/-- The elapsed-seconds and renaming stage of `parse_presens_file`:
`time_seconds` of each row is `combine_to_datetime(row) −
combine_to_datetime(first row)` in whole seconds.  `toEpoch` is the
instant (epoch seconds) that `combine_to_datetime` assigns to a row's
date/time strings under the source timezone — the timezone database is not
re-derivable in the embedding, so the instant is a parameter; the elapsed
computation and the row-for-row mapping are the source's.  `fmtP`/`fmtL`
are the two rendered timestamp strings (`datetime_presens`,
`datetime_local`).  The strict `Int32` cast of `time_seconds` rejects
(raises on) out-of-range differences and is the identity otherwise, so
values on the success path are the exact differences.  An empty frame maps
to an empty frame. -/
def parse_presens_file (toEpoch : RawRow → Int) (fmtP fmtL : RawRow → String)
    (stem : String) (rows : List RawRow) : List ParsedRow :=
  match rows with
  | [] => []
  | r0 :: _ =>
    rows.map (fun r =>
      { source_file := stem,
        time_seconds := toEpoch r - toEpoch r0,
        oxygen := r.oxygen_airsatur,
        temperature := r.temp_c,
        phase := r.phase,
        amplitude := r.amp,
        datetime_presens := fmtP r,
        datetime_local := fmtL r })

/-! ## `presens_to_csv` (batch renamer / exporter)

The batch loop of `clean.presens_to_csv` (the `processing.py` copy has the
identical renaming pass).  A source `.txt` file is given by its stem and
its parsed series (the per-file parse itself is 4.2 and not at issue in the
renaming claims); the name map is the `name_map` worksheet.  Stage 1 is the
dict comprehension
`{f: name_mapping[f.stem] for f in glob("*.txt")}` — a missing stem raises
`KeyError` there, before any file is parsed or written.  Stage 2 derives
the timestamped output name from the first row's `datetime_local`
(`df.item(0, ...)` — out-of-bounds on an empty series; `strptime` — raises
on a malformed timestamp; `new.split("_", 1)[1]` — `IndexError` when the
mapped name has no underscore) and stage 3 writes one `.csv` per mapped
input, in input order. -/

structure PFile where
  stem : String
  rows : List ParsedRow
deriving Repr

/-- First-match lookup in the two-column name map (dict access). -/
def lookupMap (m : List (String × String)) (k : String) : Option String :=
  (m.find? (fun p => decide (p.1 = k))).map (fun p => p.2)

/-- Effectful map over a list, stopping at the first raised error — the
evaluation order of a Python comprehension or `for` loop. -/
def mapME (f : α → Except PyError β) : List α → Except PyError (List β)
  | [] => Except.ok []
  | a :: l => do
    let b ← f a
    let r ← mapME f l
    Except.ok (b :: r)

/-- `new.split("_", 1)[1]`: everything after the first underscore;
`IndexError` (none) when there is no underscore. -/
def splitTailAfterUnderscore (s : String) : Option String :=
  if s.data.any (fun c => decide (c = '_')) then
    some (String.mk ((s.data.dropWhile (fun c => !decide (c = '_'))).tail))
  else none

def presens_to_csv (files : List PFile) (name_mapping : List (String × String)) :
    Except PyError (List (String × List ParsedRow)) := do
  let renamed ← mapME (fun f =>
    match lookupMap name_mapping f.stem with
    | some new => Except.ok (f, new)
    | none => Except.error (PyError.keyError f.stem)) files
  let outs ← mapME (fun fn => do
    let firstLocal ←
      match fn.1.rows with
      | [] => Except.error PyError.outOfBounds
      | r :: _ => Except.ok r.datetime_local
    let dtPart ←
      match reformatDT firstLocal with
      | some p => Except.ok p
      | none => Except.error PyError.strptimeError
    let suffix ←
      match splitTailAfterUnderscore fn.2 with
      | some t => Except.ok t
      | none => Except.error PyError.indexError
    Except.ok (dtPart ++ "_" ++ suffix ++ ".csv", fn.1.rows)) renamed
  Except.ok outs

/-! ## Unicode side conditions

True facts about the real Unicode tables, taken as hypotheses by the
normalizer theorems (and discharged concretely for `asciiUni`). -/

/-- A character the normalizer can emit: stable under lowercasing and
decomposition, non-combining, and alphanumeric-or-underscore. -/
def settledChar (u : PyUni) (c : Char) : Prop :=
  (u.isAlnum c = true ∨ c = '_') ∧ u.lower c = [c] ∧ u.nfd c = [c] ∧
    u.combining c = false

/-- Non-combining characters of the decomposition of a lowercased character
are themselves lowercase (or uncased) and decomposition-free: NFD is
idempotent and the Unicode lowercase mapping produces lowercase/uncased
characters, whose decompositions' base characters are again
lowercase/uncased. -/
def UniBaseStable (u : PyUni) : Prop :=
  ∀ c e d, e ∈ u.lower c → d ∈ u.nfd e → u.combining d = false →
    u.lower d = [d] ∧ u.nfd d = [d]

/-- The underscore is uncased, has no decomposition and is not a combining
character. -/
def UniUnderscoreInert (u : PyUni) : Prop :=
  u.lower '_' = ['_'] ∧ u.nfd '_' = ['_'] ∧ u.combining '_' = false

/-- No alphanumeric character is among the twelve concrete characters that
`_normalize_1` replaces or deletes (they are punctuation/space). -/
def UniAlnumNotSpecial (u : PyUni) : Prop :=
  ∀ c, u.isAlnum c = true → c ∉ set1 ∧ c ∉ aposSet ∧ c ≠ nbsp

/-! ## Concrete inputs used by witnesses and counterexamples -/

def rowA : DataRow :=
  ⟨"fileA", 0, PyVal.num 100, PyVal.num 10, "2025-01-01 10:00:00+0000"⟩

def rowB : DataRow :=
  ⟨"fileA", 3661, PyVal.num 90, PyVal.num 10, "2025-01-01 11:01:01+0000"⟩

/-- A window (`[1000, 2000]`) that selects no row of `[rowA]`. -/
def mdA : MetadataRow := ⟨"fileA", 1000, 2000⟩

/-- A window (`[0, 4000]`) that selects both rows of `[rowA, rowB]`. -/
def mdB : MetadataRow := ⟨"fileA", 0, 4000⟩

def raw1 : RawRow := ⟨"01/01/25", "10:00:00", PyVal.num 100, PyVal.num 10, PyVal.num 0, 1⟩

def raw2 : RawRow := ⟨"01/01/25", "10:01:00", PyVal.num 99, PyVal.num 10, PyVal.num 0, 2⟩

/-- A concrete assignment of instants to the witness rows (the value the
timezone-aware `combine_to_datetime` would give them). -/
def epochW (r : RawRow) : Int := if r.time_hh_mm_ss = "10:00:00" then 1000 else 1060

def fmtW (r : RawRow) : String := r.date_dd_mm_yy ++ " " ++ r.time_hh_mm_ss

def prow : ParsedRow :=
  ⟨"src_a", 0, PyVal.num 100, PyVal.num 10, PyVal.num 0, 1,
   "2025-01-01 19:00:00+0100", "2025-01-01 10:00:00-0800"⟩

def pfileA : PFile := ⟨"a", [prow]⟩

def pfileB : PFile := ⟨"b", [prow]⟩

/-- A name map that knows the stem `"a"` but not `"b"`. -/
def c3map : List (String × String) := [("a", "grp_x")]

def c8table : List MetadataRow := [⟨"a", 0, -1⟩]

/-- The fit record `linear_fit [rowA, rowB] mdB` computes: slope
`−10/3661` rounded to 5 decimals, `R² = 1`, mean temperature 10, the two
row timestamps, and the 3661-second duration in polars' rendering. -/
def c6res : FitRow :=
  ⟨"fileA", some (PyVal.num (-(273 : ℚ) / 100000)), some (PyVal.num 1),
   some (PyVal.num 10), some "2025-01-01 10:00:00+0000",
   some "2025-01-01 11:01:01+0000", some "1h 1m 1s"⟩

/-- The fitted series for the same call: the fitted line passes through
both points exactly. -/
def c6fitted : List FittedRow :=
  [⟨rowA, PyVal.num 100⟩, ⟨rowB, PyVal.num 90⟩]

/-! # Helper lemmas -/

theorem exBind_ok {α β : Type} (a : α) (f : α → Except PyError β) :
    (Except.ok a >>= f) = f a := rfl

theorem exBind_err {α β : Type} (e : PyError) (f : α → Except PyError β) :
    ((Except.error e : Except PyError α) >>= f) = Except.error e := rfl

theorem resolveStop_cons (r : DataRow) (rest : List DataRow) (s : Int) :
    ∃ t, resolveStop (r :: rest) s = Except.ok t := by
  unfold resolveStop
  split
  · cases hl : (r :: rest).getLast? with
    | none => exact absurd (List.getLast?_eq_none_iff.mp hl) (by simp)
    | some x => exact ⟨x.time_seconds, rfl⟩
  · exact ⟨s, rfl⟩

theorem linregressE_error (xs : List ℚ) (ys : List PyVal) (e : PyError)
    (h : linregressE xs ys = Except.error e) : e = PyError.valueError := by
  unfold linregressE at h
  split at h
  · exact (Except.error.injEq _ _).mp h.symm
  · split at h
    · exact (Except.error.injEq _ _).mp h.symm
    · split at h <;> exact absurd h (by simp)

theorem durationOfE_error (tStart tStop : String) (e : PyError)
    (he : durationOfE tStart tStop = Except.error e) : e = PyError.toDatetimeError := by
  unfold durationOfE at he
  split at he
  · exact absurd he (by simp)
  · exact ((Except.error.injEq _ _).mp he).symm

theorem fitNonempty_error (name : String) (d0 : DataRow) (drest : List DataRow)
    (e : PyError) (he : fitNonempty name d0 drest = Except.error e) :
    e = PyError.valueError ∨ e = PyError.toDatetimeError := by
  unfold fitNonempty at he
  rcases hlr : linregressE ((d0 :: drest).map (fun r => (r.time_seconds : ℚ)))
      ((d0 :: drest).map (fun r => r.oxygen)) with e' | res
  · rw [hlr, exBind_err] at he
    exact Or.inl (((Except.error.injEq _ _).mp he).symm.trans
      (linregressE_error _ _ _ hlr))
  · rw [hlr, exBind_ok] at he
    rcases hdur : durationOfE d0.datetime_local
        ((drest.getLast?.getD d0).datetime_local) with e' | dur
    · rw [hdur, exBind_err] at he
      exact Or.inr (((Except.error.injEq _ _).mp he).symm.trans
        (durationOfE_error _ _ _ hdur))
    · rw [hdur, exBind_ok] at he
      exact absurd he (by simp)

/-- Any failure of `linear_fit` on a non-empty input frame is a
`ValueError` from the regression or a parse failure of the timestamp
strings — never the out-of-bounds error of the empty-frame reads. -/
theorem linear_fit_error_of_ne_nil (df : List DataRow) (md : MetadataRow) (e : PyError)
    (h : df ≠ []) (he : linear_fit df md = Except.error e) :
    e = PyError.valueError ∨ e = PyError.toDatetimeError := by
  obtain ⟨r, rest, rfl⟩ : ∃ a l, df = a :: l := by
    cases df with
    | nil => exact absurd rfl h
    | cons a l => exact ⟨a, l, rfl⟩
  obtain ⟨t, ht⟩ := resolveStop_cons r rest md.analysis_stop_seconds
  unfold linear_fit at he
  rw [dfItemFirst, exBind_ok, ht, exBind_ok] at he
  split at he
  · exact absurd he (by simp)
  · exact fitNonempty_error _ _ _ _ he

/-! # Claim theorems -/

/-- C9: `get_fit`'s optional `start`/`stop` arguments are resolved against
the metadata window but never forwarded — `linear_fit(data, info)` is
called without them — so for every series, metadata row and argument pair
the result coincides with the call that omits both arguments: the analysis
window always comes from the metadata record. -/
theorem C9_get_fit_ignores_start_stop (data : List DataRow) (info : MetadataRow)
    (start stop : Option Int) :
    get_fit data info start stop = get_fit data info none none := rfl

/-- C10: `linear_fit` presupposes a non-empty input frame: on a zero-row
frame it fails with polars' out-of-bounds error already at
`df.item(0, "source_file_cleaned")` (and, under the `-1` sentinel, would
fail again at `df.item(-1, x_col)`), before any window filtering; and once
the input frame is non-empty this error can never occur — the tolerated
empty case is only the window filter coming back empty. -/
theorem C10_linear_fit_empty_input_raises :
    (∀ md : MetadataRow, linear_fit [] md = Except.error PyError.outOfBounds) ∧
    (∀ (df : List DataRow) (md : MetadataRow), df ≠ [] →
      linear_fit df md ≠ Except.error PyError.outOfBounds) := by
  constructor
  · intro md
    rfl
  · intro df md h hc
    rcases linear_fit_error_of_ne_nil df md _ h hc with h1 | h1 <;>
      exact PyError.noConfusion h1

/-- Witness for C10 at a concrete empty and a concrete one-row frame. -/
theorem C10_witness :
    linear_fit [] mdA = Except.error PyError.outOfBounds ∧
    linear_fit [rowA] mdA ≠ Except.error PyError.outOfBounds :=
  ⟨C10_linear_fit_empty_input_raises.1 mdA,
   C10_linear_fit_empty_input_raises.2 [rowA] mdA (by simp)⟩

/-- C8: metadata lookup by cleaned filename fails with polars'
`NoRowsReturnedError` (the spec's `NotFoundError`) exactly when no row's
`source_file_cleaned` equals the query under exact string comparison, and
a successfully returned row's key equals the query.  (With several
matching rows the call fails too, but with `TooManyRowsReturnedError`, a
different error.) -/
theorem C8_get_metadata_lookup (table : List MetadataRow) (q : String) :
    ((get_metadata table q = Except.error PyError.noRowsReturned) ↔
      ∀ r ∈ table, r.source_file_cleaned ≠ q) ∧
    (∀ r : MetadataRow, get_metadata table q = Except.ok r →
      r.source_file_cleaned = q) := by
  have hmem : ∀ r ∈ table.filter (fun r => decide (r.source_file_cleaned = q)),
      r.source_file_cleaned = q := by
    intro r hr
    simpa using (List.mem_filter.mp hr).2
  constructor
  · constructor
    · intro h r hr hq
      unfold get_metadata rowByPredicateE at h
      split at h
      · rename_i hfil
        have hin : r ∈ table.filter (fun r => decide (r.source_file_cleaned = q)) :=
          List.mem_filter.mpr ⟨hr, by simp [hq]⟩
        rw [hfil] at hin
        exact absurd hin (List.not_mem_nil r)
      · exact absurd h (by simp)
      · simp at h
    · intro hall
      unfold get_metadata rowByPredicateE
      have hfil : table.filter (fun r => decide (r.source_file_cleaned = q)) = [] :=
        List.filter_eq_nil_iff.mpr (fun a ha => by simpa using hall a ha)
      rw [hfil]
  · intro r h
    unfold get_metadata rowByPredicateE at h
    split at h
    · exact absurd h (by simp)
    · rename_i r' hfil
      injection h with h'
      subst h'
      exact hmem _ (by rw [hfil]; exact List.mem_singleton_self _)
    · exact absurd h (by simp)

/-- Witness for C8: the one-row table, a missing and a present key. -/
theorem C8_witness :
    (get_metadata c8table "zzz" = Except.error PyError.noRowsReturned) ∧
    (⟨"a", 0, -1⟩ : MetadataRow).source_file_cleaned = "a" :=
  ⟨((C8_get_metadata_lookup c8table "zzz").1).mpr (by decide),
   (C8_get_metadata_lookup c8table "a").2 ⟨"a", 0, -1⟩ rfl⟩

/-- C1: when the window filter selects no rows from a (non-empty) series,
`linear_fit` does not raise: it returns the record whose only populated
field is the first row's cleaned filename (slope, R², mean temperature,
time bounds and duration all absent), together with the empty filtered
frame carrying the all-NaN `oxygen_fitted` column (vacuously all-NaN: it
has no rows), and the regression is never consulted. -/
theorem C1_empty_window_tolerated (df : List DataRow) (md : MetadataRow)
    (r0 : DataRow) (rest : List DataRow) (stop : Int)
    (hdf : df = r0 :: rest)
    (hstop : resolveStop df md.analysis_stop_seconds = Except.ok stop)
    (hempty : df.filter
      (fun r => isBetween md.analysis_start_seconds stop r.time_seconds) = []) :
    linear_fit df md =
      Except.ok (⟨r0.source_file_cleaned, none, none, none, none, none, none⟩,
        ([] : List FittedRow)) := by
  subst hdf
  unfold linear_fit
  simp only [dfItemFirst, exBind_ok, hstop, hempty]
  rfl

/-- Witness for C1: the window `[1000, 2000]` selects nothing from the
single row at elapsed time 0. -/
theorem C1_witness :
    linear_fit [rowA] mdA =
      Except.ok (⟨"fileA", none, none, none, none, none, none⟩,
        ([] : List FittedRow)) :=
  C1_empty_window_tolerated [rowA] mdA rowA [] 2000 rfl rfl rfl

/-- C2: for a non-empty series, the `-1` stop sentinel resolves to the last
row's elapsed time, and `linear_fit` returns exactly the same record and
fitted series as a call whose metadata window carries that value
explicitly. -/
theorem C2_stop_sentinel (df : List DataRow) (md : MetadataRow) (h : df ≠ []) :
    linear_fit df { md with analysis_stop_seconds := -1 } =
    linear_fit df { md with analysis_stop_seconds := (df.getLast h).time_seconds } := by
  have hl : df.getLast? = some (df.getLast h) := List.getLast?_eq_getLast df h
  have hrs1 : resolveStop df (-1 : Int) = Except.ok (df.getLast h).time_seconds := by
    unfold resolveStop
    rw [if_pos rfl, hl]
  have hrs2 : resolveStop df (df.getLast h).time_seconds =
      Except.ok (df.getLast h).time_seconds := by
    unfold resolveStop
    split
    · rw [hl]
    · rfl
  have e1 : ({ md with analysis_stop_seconds := (-1 : Int) } :
      MetadataRow).analysis_stop_seconds = (-1 : Int) := rfl
  have e2 : ({ md with analysis_stop_seconds := (df.getLast h).time_seconds } :
      MetadataRow).analysis_stop_seconds = (df.getLast h).time_seconds := rfl
  have e3 : ({ md with analysis_stop_seconds := (-1 : Int) } :
      MetadataRow).analysis_start_seconds = md.analysis_start_seconds := rfl
  have e4 : ({ md with analysis_stop_seconds := (df.getLast h).time_seconds } :
      MetadataRow).analysis_start_seconds = md.analysis_start_seconds := rfl
  unfold linear_fit
  rw [e1, e2, e3, e4, hrs1, hrs2]

/-- Witness for C2: the two-row series whose last elapsed time is 3661. -/
theorem C2_witness :
    linear_fit [rowA, rowB] { mdB with analysis_stop_seconds := -1 } =
    linear_fit [rowA, rowB] { mdB with analysis_stop_seconds := 3661 } :=
  C2_stop_sentinel [rowA, rowB] mdB (by simp)

/-- The renaming pass (the dict comprehension of `presens_to_csv`) raises
`KeyError` for the first file, in folder order, whose stem the name map
does not know. -/
theorem renamePass_error (m : List (String × String)) (files : List PFile)
    (f : PFile)
    (hfind : files.find? (fun g => (lookupMap m g.stem).isNone) = some f) :
    mapME (fun g => match lookupMap m g.stem with
      | some new => Except.ok (g, new)
      | none => Except.error (PyError.keyError g.stem)) files =
    Except.error (PyError.keyError f.stem) := by
  induction files with
  | nil => simp [List.find?] at hfind
  | cons a l ih =>
    unfold mapME
    cases hla : lookupMap m a.stem with
    | none =>
      simp only [List.find?, hla, Option.isNone_none] at hfind
      injection hfind with h'
      subst h'
      rfl
    | some new =>
      simp only [List.find?, hla, Option.isNone_some] at hfind
      simp only [exBind_ok, ih hfind, exBind_err]

/-- C3 counterexample: a source folder with files `a` and `b` and a name
map that knows only `a`.  The claim predicts that only `b` fails (skipped
and logged) while `a` is still exported; in fact the dict-comprehension
renaming pass raises `KeyError "b"`, aborting the whole batch before any
file — including the mapped `a` — is processed, so the batch produces an
error and no output list at all. -/
theorem C3_counterexample :
    presens_to_csv [pfileA, pfileB] c3map = Except.error (PyError.keyError "b") := by
  rfl

/-- C3 amended: a `.txt` file whose stem is absent from the name map makes
the whole batch abort with a `KeyError` naming the first unmapped stem,
during the renaming pass and before any file is parsed or written; the
remaining files are not processed. -/
theorem C3_amended_batch_aborts (files : List PFile) (m : List (String × String))
    (f : PFile)
    (hfind : files.find? (fun g => (lookupMap m g.stem).isNone) = some f) :
    presens_to_csv files m = Except.error (PyError.keyError f.stem) := by
  unfold presens_to_csv
  rw [renamePass_error m files f hfind, exBind_err]

/-- Witness for the amended C3 with the unmapped file first in the
folder. -/
theorem C3_amended_witness :
    presens_to_csv [pfileB, pfileA] c3map = Except.error (PyError.keyError "b") :=
  C3_amended_batch_aborts [pfileB, pfileA] c3map pfileB rfl

/-- C7: the parser's elapsed-time column starts at exactly 0 — the first
row's instant minus itself, by construction — and on a valid (time-ordered)
instrument file, whose successive `combine_to_datetime` instants are
non-decreasing, the column is non-decreasing row over row across the whole
output. -/
theorem C7_elapsed_time (toEpoch : RawRow → Int) (fmtP fmtL : RawRow → String)
    (stem : String) (r0 : RawRow) (rest : List RawRow)
    (hmono : List.Chain' (fun a b => toEpoch a ≤ toEpoch b) (r0 :: rest)) :
    ((parse_presens_file toEpoch fmtP fmtL stem (r0 :: rest)).head?).map
        ParsedRow.time_seconds = some 0 ∧
    List.Chain' (fun a b => a ≤ b)
      ((parse_presens_file toEpoch fmtP fmtL stem (r0 :: rest)).map
        ParsedRow.time_seconds) := by
  constructor
  · simp [parse_presens_file]
  · unfold parse_presens_file
    rw [List.map_map, List.chain'_map]
    exact hmono.imp (fun a b hab => by simpa using sub_le_sub_right hab (toEpoch r0))

/-- Witness for C7 on a concrete two-row file with non-decreasing
instants. -/
theorem C7_witness :
    ((parse_presens_file epochW fmtW fmtW "file1" [raw1, raw2]).head?).map
        ParsedRow.time_seconds = some 0 ∧
    List.Chain' (fun a b => a ≤ b)
      ((parse_presens_file epochW fmtW fmtW "file1" [raw1, raw2]).map
        ParsedRow.time_seconds) :=
  C7_elapsed_time epochW fmtW fmtW "file1" raw1 [raw2]
    (List.chain'_pair.mpr (by decide))

/-- C5 counterexample: with the default options, the normalizer maps
`"O2 (Air Sat.)"` to `"o2__air_sat"`, not to the claimed `"o2_air_sat"`:
`re.sub` replaces every matched character by its own underscore and no
pass collapses runs (§4.1 of the spec lists no collapsing step either).
The input is pure ASCII, where `asciiUni` is exactly Python's tables. -/
theorem C5_counterexample :
    clean_name asciiUni "O2 (Air Sat.)".data ≠ "o2_air_sat".data := by decide

/-- C5 amended: `clean_name "O2 (Air Sat.)"` with accent/special stripping
enabled returns exactly `"o2__air_sat"` — lowercased, each
punctuation/space character replaced by its own underscore (the run
` (` becomes `__`, `.)` becomes a trailing `__`), trailing underscores
stripped, no collapsing of underscore runs. -/
theorem C5_amended_value :
    clean_name asciiUni "O2 (Air Sat.)".data = "o2__air_sat".data := by decide

/-- C4 counterexample: the normalizer is not idempotent with the default
options.  `_remove_special` runs after `_strip_underscores`, so deleting a
special character can expose fresh edge underscores:
`clean_name "!_a_!" = "_a_"` but `clean_name "_a_" = "a"`. -/
theorem C4_counterexample :
    clean_name asciiUni (clean_name asciiUni "!_a_!".data) ≠
      clean_name asciiUni "!_a_!".data := by decide

theorem mem_lowerAll {u : PyUni} {s : List Char} {c : Char} :
    c ∈ lowerAll u s ↔ ∃ e ∈ s, c ∈ u.lower e := by
  induction s with
  | nil => simp [lowerAll]
  | cons a t ih => simp [lowerAll, ih]

theorem mem_nfdAll {u : PyUni} {s : List Char} {c : Char} :
    c ∈ nfdAll u s ↔ ∃ e ∈ s, c ∈ u.nfd e := by
  induction s with
  | nil => simp [nfdAll]
  | cons a t ih => simp [nfdAll, ih]

theorem mem_normalize_1 {s : List Char} {c : Char} (h : c ∈ normalize_1 s) :
    c = '_' ∨ (c ∈ s ∧ c ∉ set1 ∧ c ∉ aposSet ∧ c ≠ nbsp) := by
  unfold normalize_1 at h
  obtain ⟨b, hb, hcb⟩ := List.mem_map.mp h
  obtain ⟨hb1, hb2⟩ := List.mem_filter.mp hb
  obtain ⟨a, ha, hab⟩ := List.mem_map.mp hb1
  by_cases hnb : b = nbsp
  · rw [if_pos hnb] at hcb
    exact Or.inl hcb.symm
  · rw [if_neg hnb] at hcb
    subst hcb
    by_cases has : a ∈ set1
    · rw [if_pos has] at hab
      exact Or.inl hab.symm
    · rw [if_neg has] at hab
      subst hab
      exact Or.inr ⟨ha, has, by simpa using hb2, hnb⟩

theorem mem_strip_underscores {l : List Char} {c : Char}
    (h : c ∈ _strip_underscores l) : c ∈ l := by
  unfold _strip_underscores at h
  rw [List.mem_reverse] at h
  have h2 := (List.dropWhile_sublist _).mem h
  rw [List.mem_reverse] at h2
  exact (List.dropWhile_sublist _).mem h2

theorem lowerAll_eq_self {u : PyUni} {l : List Char}
    (h : ∀ c ∈ l, u.lower c = [c]) : lowerAll u l = l := by
  induction l with
  | nil => rfl
  | cons a t ih =>
    rw [lowerAll, h a (List.mem_cons_self a t),
      ih (fun c hc => h c (List.mem_cons_of_mem a hc))]
    rfl

theorem nfdAll_eq_self {u : PyUni} {l : List Char}
    (h : ∀ c ∈ l, u.nfd c = [c]) : nfdAll u l = l := by
  induction l with
  | nil => rfl
  | cons a t ih =>
    rw [nfdAll, h a (List.mem_cons_self a t),
      ih (fun c hc => h c (List.mem_cons_of_mem a hc))]
    rfl

theorem normalize_1_eq_self {l : List Char}
    (h : ∀ c ∈ l, c ∉ set1 ∧ c ∉ aposSet ∧ c ≠ nbsp) : normalize_1 l = l := by
  induction l with
  | nil => rfl
  | cons a t ih =>
    have ha := h a (List.mem_cons_self a t)
    have ht := ih (fun c hc => h c (List.mem_cons_of_mem a hc))
    unfold normalize_1 at ht ⊢
    rw [List.map_cons, if_neg ha.1, List.filter_cons]
    have hcond : (!decide (a ∈ aposSet)) = true := by simp [ha.2.1]
    rw [if_pos hcond, List.map_cons, if_neg ha.2.2, ht]

theorem strip_accents_eq_self {u : PyUni} {l : List Char}
    (h : ∀ c ∈ l, u.nfd c = [c] ∧ u.combining c = false) :
    _strip_accents u l = l := by
  unfold _strip_accents
  rw [nfdAll_eq_self (fun c hc => (h c hc).1)]
  exact List.filter_eq_self.mpr (fun a ha => by simp [(h a ha).2])

theorem remove_special_eq_self {u : PyUni} {l : List Char}
    (h : ∀ c ∈ l, u.isAlnum c = true ∨ c = '_') : _remove_special u l = l := by
  unfold _remove_special
  refine List.filter_eq_self.mpr (fun a ha => ?_)
  rcases h a ha with h' | h' <;> simp [h']

/-- Character-level provenance: with the default flags, every character the
normalizer emits is alphanumeric-or-underscore, stable under lowercasing
and decomposition, and non-combining. -/
theorem clean_name_settled (u : PyUni) (h1 : UniBaseStable u)
    (h2 : UniUnderscoreInert u) (s : List Char) :
    ∀ c ∈ clean_name u s, settledChar u c := by
  intro c hc
  unfold clean_name at hc
  simp only [if_true] at hc
  obtain ⟨hc1, hc2⟩ := List.mem_filter.mp hc
  have halnum : u.isAlnum c = true ∨ c = '_' := by
    rcases Bool.or_eq_true_iff.mp hc2 with h' | h'
    · exact Or.inl h'
    · exact Or.inr (of_decide_eq_true h')
  have hc3 : c ∈ _strip_accents u (normalize_1 (lowerAll u s)) :=
    mem_strip_underscores hc1
  obtain ⟨hc4, hc5⟩ := List.mem_filter.mp hc3
  have hcomb : u.combining c = false := by
    simpa using hc5
  obtain ⟨e, he, hce⟩ := mem_nfdAll.mp hc4
  rcases mem_normalize_1 he with he' | ⟨he', -⟩
  · subst he'
    rw [h2.2.1] at hce
    have : c = '_' := by simpa using hce
    subst this
    exact ⟨Or.inr rfl, h2.1, h2.2.1, h2.2.2⟩
  · obtain ⟨c0, -, hc0⟩ := mem_lowerAll.mp he'
    obtain ⟨hl, hn⟩ := h1 c0 e c hc0 hce hcomb
    exact ⟨halnum, hl, hn, hcomb⟩

/-- C4 amended: with the default options the normalizer is idempotent only
up to edge underscores — for every string, applying it twice equals
stripping leading/trailing underscores from the single application (and
hence differs exactly when special-character removal, which runs after the
underscore trim, has exposed a new edge underscore, as in the
counterexample). -/
theorem C4_amended_idempotent_up_to_strip (u : PyUni) (h1 : UniBaseStable u)
    (h2 : UniUnderscoreInert u) (h3 : UniAlnumNotSpecial u) (s : List Char) :
    clean_name u (clean_name u s) = _strip_underscores (clean_name u s) := by
  have hset := clean_name_settled u h1 h2 s
  have hspec : ∀ c ∈ clean_name u s, c ∉ set1 ∧ c ∉ aposSet ∧ c ≠ nbsp := by
    intro c hc
    rcases (hset c hc).1 with h' | h'
    · exact h3 c h'
    · subst h'
      exact ⟨by decide, by decide, by decide⟩
  conv_lhs => rw [clean_name]
  simp only [if_true]
  rw [lowerAll_eq_self (fun c hc => (hset c hc).2.1),
    normalize_1_eq_self hspec,
    strip_accents_eq_self (fun c hc => ⟨(hset c hc).2.2.1, (hset c hc).2.2.2⟩),
    remove_special_eq_self
      (fun c hc => (hset c (mem_strip_underscores hc)).1)]

theorem char_le_iff (a b : Char) : a ≤ b ↔ a.toNat ≤ b.toNat :=
  Char.le_def.trans UInt32.le_def

theorem asciiLower_idem (c : Char) : asciiLower (asciiLower c) = asciiLower c := by
  unfold asciiLower
  by_cases h : 'A' ≤ c ∧ c ≤ 'Z'
  · rw [if_pos h]
    have h90 : c.toNat ≤ 90 := by
      have hz0 : ('Z' : Char).toNat = 90 := rfl
      have := (char_le_iff c 'Z').mp h.2
      rw [hz0] at this
      exact this
    have h65 : 65 ≤ c.toNat := by
      have ha0 : ('A' : Char).toNat = 65 := rfl
      have := (char_le_iff 'A' c).mp h.1
      rw [ha0] at this
      exact this
    have hv : (c.toNat + 32).isValidChar := Or.inl (by omega)
    have ht : (Char.ofNat (c.toNat + 32)).toNat = c.toNat + 32 := by
      rw [Char.ofNat, dif_pos hv]
      rfl
    rw [if_neg]
    rintro ⟨-, hle⟩
    have hz : ('Z' : Char).toNat = 90 := rfl
    have hn := (char_le_iff _ 'Z').mp hle
    rw [ht, hz] at hn
    omega
  · rw [if_neg h, if_neg h]

theorem asciiUni_baseStable : UniBaseStable asciiUni := by
  intro c e d he hd _
  have he' : e = asciiLower c := by simpa [asciiUni] using he
  have hd' : d = e := by simpa [asciiUni] using hd
  subst hd'
  subst he'
  exact ⟨by simp [asciiUni, asciiLower_idem], rfl⟩

theorem asciiUni_underscoreInert : UniUnderscoreInert asciiUni := by
  refine ⟨?_, rfl, rfl⟩
  show [asciiLower '_'] = ['_']
  decide

theorem asciiUni_alnumNotSpecial : UniAlnumNotSpecial asciiUni := by
  intro c h
  refine ⟨fun hc => ?_, fun hc => ?_, fun hc => ?_⟩
  · simp only [set1, List.mem_cons, List.not_mem_nil, or_false] at hc
    rcases hc with rfl | rfl | rfl | rfl | rfl | rfl | rfl | rfl | rfl <;>
      exact absurd h (by decide)
  · simp only [aposSet, List.mem_cons, List.not_mem_nil, or_false] at hc
    rcases hc with rfl | rfl <;> exact absurd h (by decide)
  · subst hc
    exact absurd h (by decide)

/-- Witness for the amended C4 at a concrete ASCII input whose cleaned form
has a trailing underscore source. -/
theorem C4_amended_witness :
    clean_name asciiUni (clean_name asciiUni "Salt (H2O)!".data) =
      _strip_underscores (clean_name asciiUni "Salt (H2O)!".data) :=
  C4_amended_idempotent_up_to_strip asciiUni asciiUni_baseStable
    asciiUni_underscoreInert asciiUni_alnumNotSpecial "Salt (H2O)!".data

/-- C6 counterexample: on the two-row series spanning 3661 seconds the
result's duration field is the polars duration rendering `"1h 1m 1s"`
(`.dt.to_string("polars")` on the timestamp difference), not the
`HH:MM:SS` string `"01:01:01"` the claim asserts. -/
theorem C6_counterexample :
    (linear_fit [rowA, rowB] mdB).map (fun p => p.1.duration) =
      Except.ok (some "1h 1m 1s") ∧
    hhmmss 3661 = "01:01:01" ∧ ("1h 1m 1s" : String) ≠ "01:01:01" := by
  refine ⟨rfl, rfl, by decide⟩

/-- C6 amended: for every non-empty filtered window, `start_time` and
`stop_time` are the `datetime_local` strings of the first and last filtered
row (as claimed), and `duration` is the stop−start timestamp difference —
but rendered in polars' compact duration notation
(`fmtDurationPolars`, e.g. `"1h 1m 1s"`), not zero-padded `HH:MM:SS`. -/
theorem C6_amended_time_bounds (df : List DataRow) (md : MetadataRow)
    (r0 : DataRow) (rest : List DataRow) (stop : Int)
    (d0 : DataRow) (drest : List DataRow)
    (hdf : df = r0 :: rest)
    (hstop : resolveStop df md.analysis_stop_seconds = Except.ok stop)
    (hdff : df.filter
      (fun r => isBetween md.analysis_start_seconds stop r.time_seconds) = d0 :: drest)
    (res : FitRow) (fitted : List FittedRow)
    (hok : linear_fit df md = Except.ok (res, fitted))
    (a b : Int)
    (ha : parseDT d0.datetime_local = some a)
    (hb : parseDT ((drest.getLast?).getD d0).datetime_local = some b) :
    res.start_time = some d0.datetime_local ∧
    res.stop_time = some ((drest.getLast?).getD d0).datetime_local ∧
    res.duration = some (fmtDurationPolars ((b - a) * 1000000)) := by
  subst hdf
  unfold linear_fit at hok
  simp only [dfItemFirst, exBind_ok, hstop, hdff] at hok
  unfold fitNonempty at hok
  rcases hlr : linregressE ((d0 :: drest).map (fun r => (r.time_seconds : ℚ)))
      ((d0 :: drest).map (fun r => r.oxygen)) with e | lres
  · rw [hlr, exBind_err] at hok
    exact absurd hok (by simp)
  · rw [hlr, exBind_ok] at hok
    have hdur : durationOfE d0.datetime_local
        ((drest.getLast?).getD d0).datetime_local =
        Except.ok (fmtDurationPolars ((b - a) * 1000000)) := by
      unfold durationOfE
      rw [ha, hb]
    rw [hdur, exBind_ok] at hok
    injection hok with h'
    injection h' with hres hfit
    subst hres
    exact ⟨rfl, rfl, rfl⟩

theorem c6_hlr : linregressE (((([rowA, rowB] : List DataRow)).map (fun r => (r.time_seconds : ℚ))))
    ([rowA, rowB].map (fun r => r.oxygen)) =
    Except.ok ⟨PyVal.num (-(10 : ℚ)/3661), PyVal.num 100, PyVal.num 1⟩ := by
  unfold linregressE
  simp only [rowA, rowB, List.map_cons, List.map_nil]
  rw [if_neg, if_neg]
  · simp only [List.filterMap, centeredSq, List.sum_cons, List.sum_nil, List.map_cons,
      List.map_nil, List.length_cons, List.length_nil]
    norm_num [PyVal.sub, PyVal.mul]
  · simp [PyVal.isNan]
  · norm_num

theorem c6_hok : linear_fit [rowA, rowB] mdB = Except.ok (c6res, c6fitted) := by
  unfold linear_fit
  simp only [dfItemFirst, exBind_ok]
  rw [show resolveStop [rowA, rowB] mdB.analysis_stop_seconds = Except.ok 4000 from rfl,
    exBind_ok]
  rw [show ([rowA, rowB] : List DataRow).filter
      (fun r => isBetween mdB.analysis_start_seconds 4000 r.time_seconds) = [rowA, rowB] from rfl]
  show fitNonempty rowA.source_file_cleaned rowA [rowB] = Except.ok (c6res, c6fitted)
  unfold fitNonempty
  rw [c6_hlr, exBind_ok]
  rw [show durationOfE rowA.datetime_local ((([rowB] : List DataRow).getLast?).getD rowA).datetime_local =
      Except.ok "1h 1m 1s" from rfl, exBind_ok]
  simp only [c6res, c6fitted, fittedRows, meanTemperature, List.map_cons, List.map_nil,
    List.length_cons, List.length_nil, PyVal.sum, List.foldr, PyVal.add, PyVal.mul,
    PyVal.divQ, PyVal.sub, rowA, rowB]
  norm_num [PyVal.roundTo, round_eq]

/-- Witness for the amended C6 on the concrete 3661-second window. -/
theorem C6_amended_witness :
    c6res.start_time = some rowA.datetime_local ∧
    c6res.stop_time = some rowB.datetime_local ∧
    c6res.duration = some (fmtDurationPolars ((1735729261 - 1735725600) * 1000000)) :=
  C6_amended_time_bounds [rowA, rowB] mdB rowA [rowB] 4000 rowA [rowB]
    rfl rfl rfl c6res c6fitted c6_hok 1735725600 1735729261 rfl rfl

end O2Utils
